import Mathlib

/-
Shallow embedding of the Tablut front-end client:
the reconciliation controller (class App in app.ts) and the
request/ack transport (TablutSocketService in tablut-socket.service.ts).

Angular signals are modelled as plain fields of a record `App`; each
subscription callback / async continuation of the source becomes a pure
function `App -> ... -> App`.  The browser URL query parameter `g` and
the localStorage key `tablut:gameId` are modelled as two extra fields of
the record, written by `writeIdToUrl` / `writeGameIdToLocalStorage`.
Wall-clock time (used only to stamp log lines) is passed explicitly to
the handlers that call `pushLog`.
-/

namespace Tablut

/-- Side of a player, from types.ts. -/
inductive Side where
  | ATTACKER
  | DEFENDER
deriving DecidableEq

/-- Piece marker on the board, from types.ts: attacker, defender, king. -/
inductive Piece where
  | A
  | D
  | K
deriving DecidableEq

/-- Game phase, from the TablutState interface. -/
inductive Phase where
  | IN_PROGRESS
  | GAME_OVER
deriving DecidableEq

/-- Board coordinate, from types.ts. -/
structure Pos where
  row : Nat
  col : Nat
deriving DecidableEq

/-- A legal move candidate, from types.ts (interface TablutMove). -/
structure TablutMove where
  «from» : Pos
  «to» : Pos
  capturesPreview : List Pos
deriving DecidableEq

/-- A past move, from types.ts (interface MoveRecord). -/
structure MoveRecord where
  turn : Nat
  side : Side
  «from» : Pos
  «to» : Pos
  captures : List Pos
  capturedPieces : List Piece
deriving DecidableEq

/-- Per-side player assignment, from the players field of TablutState. -/
structure PlayerInfo where
  side : Side
  isHuman : Bool
deriving DecidableEq

/-- The two player slots of a TablutState. -/
structure Players where
  ATTACKER : PlayerInfo
  DEFENDER : PlayerInfo
deriving DecidableEq

/-- The canonical game snapshot, from types.ts (interface TablutState).
The TypeScript-only discriminator field __typename is omitted; it plays
no role at runtime.  The board is a flat row-major list indexed by
row * 9 + col, an out-of-range or empty cell reading as none. -/
structure TablutState where
  id : String
  version : Nat
  phase : Phase
  sideToMove : Side
  board : List (Option Piece)
  kingHasLeftThrone : Bool
  humanSide : Side
  botSide : Side
  players : Players
  winnerSide : Option Side
  difficulty : Nat
  legalMoves : List TablutMove
  moveHistory : List MoveRecord
deriving DecidableEq

/-- Wall-clock stamp used by pushLog (new Date() hours/minutes/seconds). -/
structure Time where
  hours : Nat
  minutes : Nat
  seconds : Nat
deriving DecidableEq

/-- The component state of class App (app.ts): every signal and private
field, plus the two browser-persisted cells the component writes
(URL query parameter g, localStorage key tablut:gameId). -/
structure App where
  state : Option TablutState
  loading : Bool
  message : String
  logs : List String
  setupOpen : Bool
  setupSubmitting : Bool
  setupHumanSide : Side
  setupDifficulty : Nat
  selectedFrom : Option Pos
  currentStateGameId : Option String
  pendingNewGameWithBotOpening : Bool
  urlGameParam : Option String
  lsGameId : Option String
deriving DecidableEq

/-- String.padStart(2, '0') on the decimal rendering of a number. -/
def pad2 (n : Nat) : String :=
  let s := toString n
  String.mk (List.replicate (2 - s.length) '0') ++ s

/-- Side label used in log lines and messages. -/
def sideLabel : Side → String
  | Side.ATTACKER => "Atacante"
  | Side.DEFENDER => "Defensor"

/-- Rendering of a coordinate as used in log lines. -/
def posStr (p : Pos) : String :=
  "(" ++ toString p.row ++ "," ++ toString p.col ++ ")"

/-- The timestamped log line built inline by App.pushLog. -/
def formatClockLine (now : Time) (msg : String) : String :=
  "[" ++ pad2 now.hours ++ ":" ++ pad2 now.minutes ++ ":" ++ pad2 now.seconds ++ "] " ++ msg

/-- App.pushLog: prepend the timestamped line and keep the first 40. -/
def pushLog (logs : List String) (now : Time) (msg : String) : List String :=
  List.take 40 (formatClockLine now msg :: logs)

/-- The line built for one history record in App.buildLogsFromHistory. -/
def formatHistoryLine (mv : MoveRecord) : String :=
  "#" ++ toString mv.turn ++ " " ++ sideLabel mv.side ++ ": " ++ posStr mv.«from» ++ " -> " ++ posStr mv.«to» ++ (if mv.captures.length ≠ 0 then " x" ++ toString mv.captures.length else "")

/-- App.buildLogsFromHistory: format every record, reverse to
newest-first, truncate to 40. -/
def buildLogsFromHistory (st : TablutState) : List String :=
  List.take 40 (List.reverse (List.map formatHistoryLine st.moveHistory))

/-- Computed signal App.humanTurn. -/
def humanTurn (a : App) : Bool :=
  match a.state with
  | some st => st.sideToMove == st.humanSide && st.phase == Phase.IN_PROGRESS
  | none => false

/-- Computed signal App.selectedTargets: destinations of the legal moves
whose origin is the selected square. -/
def selectedTargets (a : App) : List Pos :=
  match a.state, a.selectedFrom with
  | some st, some f =>
      List.map (fun m => m.«to») (List.filter (fun m => m.«from».row == f.row && m.«from».col == f.col) st.legalMoves)
  | _, _ => []

/-- App.pieceAt: board cell at row * 9 + col, absent cells read as none. -/
def pieceAt (a : App) (row col : Nat) : Option Piece :=
  match a.state with
  | some st => List.getD st.board (row * 9 + col) none
  | none => none

/-- App.isHumanPiece. -/
def isHumanPiece (piece : Option Piece) (humanSide : Side) : Bool :=
  match piece with
  | none => false
  | some p =>
      match humanSide with
      | Side.ATTACKER => p == Piece.A
      | Side.DEFENDER => p == Piece.D || p == Piece.K

/-- App.hasMoveFrom: some legal move originates at the position. -/
def hasMoveFrom (a : App) (pos : Pos) : Bool :=
  match a.state with
  | some st => List.any st.legalMoves (fun m => m.«from».row == pos.row && m.«from».col == pos.col)
  | none => false

/-- writeIdToUrl: set the g query parameter (history.replaceState). -/
def writeIdToUrl (a : App) (id : String) : App :=
  { a with urlGameParam := some id }

/-- writeGameIdToLocalStorage: set the tablut:gameId key.  The source
wraps the write in try/catch and ignores environmental failure; the
model treats storage as available. -/
def writeGameIdToLocalStorage (a : App) (id : String) : App :=
  { a with lsGameId := some id }

/-- readIdFromUrl: the g parameter, trimmed, empty reading as none. -/
def readIdFromUrl (a : App) : Option String :=
  match a.urlGameParam with
  | some g => if g.trim ≠ "" then some g.trim else none
  | none => none

/-- readGameIdFromLocalStorage: the stored id, none when blank (note the
source returns the untrimmed value). -/
def readGameIdFromLocalStorage (a : App) : Option String :=
  match a.lsGameId with
  | some id => if id.trim ≠ "" then some id else none
  | none => none

/-- The method toFriendlyError of App, on the optional message of the caught error. -/
def toFriendlyError (raw : Option String) : Option String :=
  let msg := Option.getD raw ""
  if msg = "" then none
  else if msg.startsWith "ack_timeout:" then
    some "La jugada está tardando más de lo esperado. Intenta de nuevo en unos segundos."
  else if msg = "socket_connect_timeout" ∨ msg = "socket_not_connected" then
    some "No se pudo conectar al servidor de juego."
  else if msg = "illegal_move" then
    some "La jugada no es válida según el estado actual."
  else none

/-- The onState subscription callback (App constructor): record whether
the game id changed, swap the snapshot in, reset message and selection,
persist the id, rebuild logs on a game change, run the
pending-bot-opening rule, and close the setup prompt. -/
def onStateHandler (a : App) (st : TablutState) : App :=
  let gameChanged := a.currentStateGameId ≠ some st.id
  let a1 := writeGameIdToLocalStorage (writeIdToUrl { a with
      currentStateGameId := some st.id,
      state := some st,
      message := "",
      selectedFrom := none } st.id) st.id
  let a2 := if gameChanged then { a1 with logs := buildLogsFromHistory st } else a1
  let a3 :=
    if a2.pendingNewGameWithBotOpening then
      if st.humanSide = Side.DEFENDER ∧ 0 < st.moveHistory.length then
        { a2 with pendingNewGameWithBotOpening := false, loading := false, setupSubmitting := false }
      else
        { a2 with loading := true }
    else
      { a2 with loading := false, setupSubmitting := false }
  if a3.setupOpen then { a3 with setupOpen := false } else a3

/-- Payload of the move:result push event. -/
structure MoveResultPayload where
  side : Side
  «from» : Pos
  «to» : Pos
  captures : List Pos
deriving DecidableEq

/-- The onMoveResult subscription callback. -/
def onMoveResultHandler (a : App) (mv : MoveResultPayload) (now : Time) : App :=
  { a with logs := pushLog a.logs now (sideLabel mv.side ++ ": " ++ posStr mv.«from» ++ " -> " ++ posStr mv.«to» ++ (if mv.captures.length ≠ 0 then " x" ++ toString mv.captures.length else "")) }

/-- The onTurnNote subscription callback. -/
def onTurnNoteHandler (a : App) (message : String) (now : Time) : App :=
  { a with logs := pushLog a.logs now message }

/-- The onBotThinking subscription callback. -/
def onBotThinkingHandler (a : App) (active : Bool) : App :=
  if a.pendingNewGameWithBotOpening then
    if active = false then
      { a with loading := active, pendingNewGameWithBotOpening := false, setupSubmitting := false }
    else
      { a with loading := active }
  else a

/-- The onGameOver subscription callback. -/
def onGameOverHandler (a : App) (winnerSide : Side) (now : Time) : App :=
  { a with
    logs := pushLog a.logs now ("Fin de partida. Ganador: " ++ sideLabel winnerSide),
    message := "Juego terminado. Ganador: " ++ sideLabel winnerSide }

/-- The synchronous prefix of App.runAction (loading.set(true) before
awaiting the action). -/
def runActionStart (a : App) : App :=
  { a with loading := true }

/-- The catch branch of App.runAction: set the user-facing message and
clear loading (and nothing else). -/
def runActionRejected (a : App) (errorMessage : String) (err : Option String) : App :=
  let friendly := toFriendlyError err
  { a with
    message :=
      match friendly with
      | some f => errorMessage ++ ". " ++ f
      | none => errorMessage,
    loading := false }

/-- The synchronous part of App.bootstrapGame: set loading and the
loading message, resolve the game id (URL first, then storage); with an
id, start runAction and send join (the returned id); without one, stop
loading and open the setup prompt. -/
def bootstrapGame (a : App) : App × Option String :=
  let a1 := { a with loading := true, message := "Cargando partida..." }
  match Option.orElse (readIdFromUrl a1) (fun _ => readGameIdFromLocalStorage a1) with
  | some gameId => (runActionStart a1, some gameId)
  | none => ({ a1 with loading := false, message := "", setupOpen := true }, none)

/-- The synchronous prefix of App.startNewGame, up to the gameNew call:
reset every game-local cell and remember whether the bot opens.  Returns
the payload of the game:new request (human side, difficulty). -/
def startNewGame (a : App) : App × (Side × Nat) :=
  let humanSide := a.setupHumanSide
  let botStarts := humanSide == Side.DEFENDER
  let a1 := { a with
    pendingNewGameWithBotOpening := botStarts,
    setupSubmitting := botStarts,
    loading := botStarts,
    message := "",
    logs := [],
    selectedFrom := none,
    state := none,
    currentStateGameId := none,
    setupOpen := false }
  (a1, (humanSide, a.setupDifficulty))

/-- The continuation of App.startNewGame after gameNew resolves: the
resolved snapshot is discarded; when the human opens, stop
loading/submitting. -/
def startNewGameResolved (a : App) (botStarts : Bool) (_st : TablutState) : App :=
  if botStarts then a else { a with loading := false, setupSubmitting := false }

/-- The catch branch of App.startNewGame. -/
def startNewGameRejected (a : App) (err : Option String) : App :=
  let friendly := toFriendlyError err
  { a with
    message :=
      match friendly with
      | some f => "No se pudo crear la partida. " ++ f
      | none => "No se pudo crear la partida",
    pendingNewGameWithBotOpening := false,
    loading := false,
    setupSubmitting := false,
    setupOpen := true }

/-- App.onNewGameClick. -/
def onNewGameClick (a : App) : App :=
  { a with setupOpen := true }

/-- The synchronous part of App.onDifficultyChange: store the choice;
with a held state, start runAction and send game:change:diff (the
returned payload). -/
def onDifficultyChange (a : App) (next : Nat) : App × Option (String × Nat) :=
  let a1 := { a with setupDifficulty := next }
  match a1.state with
  | none => (a1, none)
  | some st => (runActionStart a1, some (st.id, next))

/-- App.onSelectHumanSide. -/
def onSelectHumanSide (a : App) (side : Side) : App :=
  { a with setupHumanSide := side }

/-- Payload of a move:play request as issued by onCellClick. -/
structure MoveRequest where
  gameId : String
  «from» : Pos
  «to» : Pos
deriving DecidableEq

/-- App.onCellClick, up to the suspension inside runAction: the returned
App is the component state at the moment a move:play request (the second
component) is issued; runAction's loading.set(true) is included on the
emitting branch. -/
def onCellClick (a : App) (row col : Nat) : App × Option MoveRequest :=
  match a.state with
  | none => (a, none)
  | some st =>
    if humanTurn a = false then (a, none) else
    let clicked : Pos := ⟨row, col⟩
    let piece := pieceAt a row col
    match a.selectedFrom with
    | none =>
      if isHumanPiece piece st.humanSide = true ∧ hasMoveFrom a clicked = true then
        ({ a with selectedFrom := some clicked }, none)
      else (a, none)
    | some f =>
      if f.row = row ∧ f.col = col then
        ({ a with selectedFrom := none }, none)
      else if List.any (selectedTargets a) (fun p => p.row == row && p.col == col) = true then
        ({ a with selectedFrom := none, loading := true }, some ⟨st.id, f, clicked⟩)
      else if isHumanPiece piece st.humanSide = true ∧ hasMoveFrom a clicked = true then
        ({ a with selectedFrom := some clicked }, none)
      else
        ({ a with selectedFrom := none }, none)

/-- One atomic step of the controller: a push-event delivery, a click,
or the synchronous prefix / resumed continuation of one of the async
actions.  Requests emitted by a step are dropped here; the theorems
that need them use the underlying handler directly. -/
inductive Ev where
  | statePush (st : TablutState)
  | moveResult (mv : MoveResultPayload) (now : Time)
  | turnNote (message : String) (now : Time)
  | botThinking (active : Bool)
  | gameOver (winnerSide : Side) (now : Time)
  | newGameStart
  | newGameResolved (botStarts : Bool) (st : TablutState)
  | newGameRejected (botStarts : Bool) (err : Option String)
  | actionResolved (st : TablutState)
  | actionRejected (errorMessage : String) (err : Option String)
  | cellClick (row col : Nat)
  | bootstrapStart
  | newGameClick
  | difficultyChange (next : Nat)
  | selectHumanSide (side : Side)
deriving DecidableEq

/-- The step function of the controller: dispatch an event to the
handler translated from the source.  An actionResolved step is the
resumption of runAction after its awaited call resolved: the source
discards the resolved snapshot, so the step is the identity. -/
def step (a : App) (e : Ev) : App :=
  match e with
  | Ev.statePush st => onStateHandler a st
  | Ev.moveResult mv now => onMoveResultHandler a mv now
  | Ev.turnNote msg now => onTurnNoteHandler a msg now
  | Ev.botThinking active => onBotThinkingHandler a active
  | Ev.gameOver w now => onGameOverHandler a w now
  | Ev.newGameStart => (startNewGame a).1
  | Ev.newGameResolved bs st => startNewGameResolved a bs st
  | Ev.newGameRejected _ err => startNewGameRejected a err
  | Ev.actionResolved _ => a
  | Ev.actionRejected em err => runActionRejected a em err
  | Ev.cellClick r c => (onCellClick a r c).1
  | Ev.bootstrapStart => (bootstrapGame a).1
  | Ev.newGameClick => onNewGameClick a
  | Ev.difficultyChange n => (onDifficultyChange a n).1
  | Ev.selectHumanSide s => onSelectHumanSide a s

/-- The five server push events, as opposed to locally initiated steps. -/
def isPushEv : Ev → Bool
  | Ev.statePush _ => true
  | Ev.moveResult _ _ => true
  | Ev.turnNote _ _ => true
  | Ev.botThinking _ => true
  | Ev.gameOver _ _ => true
  | _ => false

/-- The events that clear pendingNewGameWithBotOpening while it is set:
a snapshot whose history already shows the defender-human opening move,
or a bot:thinking transition to inactive. -/
def clearsPendingOpening : Ev → Bool
  | Ev.statePush st => decide (st.humanSide = Side.DEFENDER ∧ 0 < st.moveHistory.length)
  | Ev.botThinking active => !active
  | _ => false

/-
Model of TablutSocketService (tablut-socket.service.ts).

setTimeout timers and socket callbacks are modelled as explicit events;
a pending call is a record with the settled flag of the source, stepped
by whichever of the ack callback and the timer callback runs next.
-/

/-- The per-call ack timeout of the service, in milliseconds. -/
def ackTimeoutMs : Nat := 20000

/-- The connect timeout of the service, in milliseconds. -/
def connectTimeoutMs : Nat := 5000

/-- The acknowledgment envelope received by the ack callback, absent
when the server passed nothing usable.  The source reads resp?.ok,
resp.data and resp?.error, so these are the three modelled fields;
a missing ok field reads as false. -/
structure Resp where
  ok : Bool
  data : Option TablutState
  error : Option String
deriving DecidableEq

/-- How the promise of emitAck settled. -/
inductive CallResult where
  | resolved (data : Option TablutState)
  | rejected (errMsg : String)
deriving DecidableEq

/-- The body of the ack callback of emitAck, once it runs unsettled:
a truthy ok resolves with data, anything else rejects with the error
string when present, else the generic message. -/
def ackResult (resp : Option Resp) : CallResult :=
  match resp with
  | some r => if r.ok then CallResult.resolved r.data else CallResult.rejected (Option.getD r.error "error")
  | none => CallResult.rejected "error"

/-- A call in flight: the event name it was sent for, the settled flag
of the source closure, and the outcome the promise settled with. -/
structure PendingCall where
  event : String
  settled : Bool
  outcome : Option CallResult
deriving DecidableEq

/-- The pending call right after socket.emit: unsettled, timer armed. -/
def initCall (event : String) : PendingCall :=
  { event := event, settled := false, outcome := none }

/-- The two things that can happen to a pending call: the server ack
callback runs, or the 20-second timer callback runs. -/
inductive CallEv where
  | ackArrived (resp : Option Resp)
  | timerFired
deriving DecidableEq

/-- One scheduler step on a pending call.  Both callbacks begin with the
settled check of the source and are no-ops once the call settled. -/
def stepCall (c : PendingCall) (e : CallEv) : PendingCall :=
  match e with
  | CallEv.ackArrived resp =>
      if c.settled then c
      else { c with settled := true, outcome := some (ackResult resp) }
  | CallEv.timerFired =>
      if c.settled then c
      else { c with settled := true, outcome := some (CallResult.rejected ("ack_timeout:" ++ c.event)) }

/-- What settles the connection wait of ensureConnected first: the
connect event, a connect_error (with the optional message of the Error),
or the 5-second timer. -/
inductive ConnEv where
  | connected
  | connectError (msg : Option String)
  | timeout
deriving DecidableEq

/-- Outcome of ensureConnected: resolved, or rejected with the optional
message of the rejecting Error. -/
inductive ConnResult where
  | ok
  | err (msg : Option String)
deriving DecidableEq

/-- ensureConnected: immediate success when the socket is already
connected; otherwise the first of connect / connect_error / timer
decides (cleanup unregisters the rest, so later events are ignored). -/
def ensureConnected (alreadyConnected : Bool) (firstEv : ConnEv) : ConnResult :=
  if alreadyConnected then ConnResult.ok
  else
    match firstEv with
    | ConnEv.connected => ConnResult.ok
    | ConnEv.connectError m => ConnResult.err m
    | ConnEv.timeout => ConnResult.err (some "socket_connect_timeout")

/-- How emitAck proceeds after awaiting ensureConnected: either it
rejects before emitting anything (err?.message ?? socket_not_connected),
or it emits the request and arms the pending call. -/
inductive EmitOutcome where
  | rejectedBeforeSend (msg : String)
  | sent (c : PendingCall)
deriving DecidableEq

/-- emitAck up to the point the request is (or is not) emitted. -/
def emitAck (alreadyConnected : Bool) (connEv : ConnEv) (event : String) : EmitOutcome :=
  match ensureConnected alreadyConnected connEv with
  | ConnResult.ok => EmitOutcome.sent (initCall event)
  | ConnResult.err m => EmitOutcome.rejectedBeforeSend (Option.getD m "socket_not_connected")

/-
Concrete fixtures used by witnesses and counterexamples.
-/

/-- A baseline component state with everything empty. -/
def app0 : App :=
  { state := none
    loading := false
    message := ""
    logs := []
    setupOpen := false
    setupSubmitting := false
    setupHumanSide := Side.DEFENDER
    setupDifficulty := 4
    selectedFrom := none
    currentStateGameId := none
    pendingNewGameWithBotOpening := false
    urlGameParam := none
    lsGameId := none }

/-- Both player slots human/bot for a defender-human game. -/
def playersDefHuman : Players :=
  { ATTACKER := { side := Side.ATTACKER, isHuman := false }
    DEFENDER := { side := Side.DEFENDER, isHuman := true } }

/-- Both player slots human/bot for an attacker-human game. -/
def playersAtkHuman : Players :=
  { ATTACKER := { side := Side.ATTACKER, isHuman := true }
    DEFENDER := { side := Side.DEFENDER, isHuman := false } }

/-- A defender-human snapshot whose history already holds the bot's
opening move: the qualifying snapshot of the bot-opens scenario. -/
def stBotOpened : TablutState :=
  { id := "g1"
    version := 1
    phase := Phase.IN_PROGRESS
    sideToMove := Side.DEFENDER
    board := []
    kingHasLeftThrone := false
    humanSide := Side.DEFENDER
    botSide := Side.ATTACKER
    players := playersDefHuman
    winnerSide := none
    difficulty := 4
    legalMoves := []
    moveHistory := [{ turn := 1, side := Side.ATTACKER, «from» := ⟨0, 3⟩, «to» := ⟨2, 3⟩, captures := [], capturedPieces := [] }] }

/-- An attacker-human snapshot where the attacker may move from (3,4)
to (4,4), plus a degenerate self-move from (4,4) to (4,4) used to probe
the origin-in-target-set corner of onCellClick. -/
def stAtkTurn : TablutState :=
  { id := "g2"
    version := 3
    phase := Phase.IN_PROGRESS
    sideToMove := Side.ATTACKER
    board := []
    kingHasLeftThrone := false
    humanSide := Side.ATTACKER
    botSide := Side.DEFENDER
    players := playersAtkHuman
    winnerSide := none
    difficulty := 2
    legalMoves := [{ «from» := ⟨3, 4⟩, «to» := ⟨4, 4⟩, capturesPreview := [] },
                   { «from» := ⟨4, 4⟩, «to» := ⟨4, 4⟩, capturesPreview := [] }]
    moveHistory := [] }

/-- The component holding stAtkTurn with (4,4) selected. -/
def appSelfTarget : App :=
  { app0 with
    state := some stAtkTurn
    currentStateGameId := some "g2"
    selectedFrom := some ⟨4, 4⟩ }

/-- The component holding stAtkTurn with (3,4) selected. -/
def appAtkSelected : App :=
  { app0 with
    state := some stAtkTurn
    currentStateGameId := some "g2"
    selectedFrom := some ⟨3, 4⟩ }

/-- The component right after requesting a bot-opens new game. -/
def appPendingOpening : App :=
  { app0 with
    pendingNewGameWithBotOpening := true
    setupSubmitting := true
    loading := true }

/-- A component with submitting still set, as left by a bot-opens
new-game request whose snapshot kept the flag on. -/
def appSubmitting : App :=
  { app0 with
    state := some stBotOpened
    currentStateGameId := some "g1"
    setupSubmitting := true
    loading := true }

/-- A fixed clock stamp. -/
def t0 : Time := { hours := 9, minutes := 5, seconds := 30 }

/-
Theorems.
-/

/-- Flat characterization of the onState subscription callback: every
field of the resulting component state, in one record literal. -/
theorem onStateHandler_eq (a : App) (st : TablutState) :
    onStateHandler a st = { a with
      state := some st
      message := ""
      selectedFrom := none
      currentStateGameId := some st.id
      urlGameParam := some st.id
      lsGameId := some st.id
      logs := if a.currentStateGameId ≠ some st.id then buildLogsFromHistory st else a.logs
      pendingNewGameWithBotOpening :=
        a.pendingNewGameWithBotOpening && !(decide (st.humanSide = Side.DEFENDER ∧ 0 < st.moveHistory.length))
      loading :=
        a.pendingNewGameWithBotOpening && !(decide (st.humanSide = Side.DEFENDER ∧ 0 < st.moveHistory.length))
      setupSubmitting :=
        if a.pendingNewGameWithBotOpening then
          (if st.humanSide = Side.DEFENDER ∧ 0 < st.moveHistory.length then false else a.setupSubmitting)
        else false
      setupOpen := false } := by
  by_cases hg : a.currentStateGameId ≠ some st.id <;>
  by_cases hp : a.pendingNewGameWithBotOpening <;>
  by_cases hq : st.humanSide = Side.DEFENDER ∧ 0 < st.moveHistory.length <;>
  by_cases ho : a.setupOpen <;>
    simp [onStateHandler, writeIdToUrl, writeGameIdToLocalStorage, hg, hp, hq, ho]

/-- A settled pending call is left unchanged by both callbacks. -/
theorem stepCall_settled (c : PendingCall) (e : CallEv) (h : c.settled = true) :
    stepCall c e = c := by
  cases e <;> simp [stepCall, h]

/-- A settled pending call is left unchanged by any sequence of events. -/
theorem foldl_stepCall_settled (c : PendingCall) (evs : List CallEv) (h : c.settled = true) :
    List.foldl stepCall c evs = c := by
  induction evs with
  | nil => rfl
  | cons e rest ih => rw [List.foldl_cons, stepCall_settled c e h, ih]

/-- Claim C6: a call made via emitAck settles exactly once, on whichever
comes first of the server acknowledgment and the timer; the timer
rejects with the timeout error naming the event, the ack resolves or
rejects per its envelope, and an ack arriving after the timer fired is
ignored, the caller keeping the timeout outcome. -/
theorem emitAck_settles_once (event : String) (e : CallEv) (rest : List CallEv) (resp : Option Resp)
    (d : Option TablutState) (er : Option String) (errStr : String) :
    (stepCall (initCall event) e).settled = true
    ∧ List.foldl stepCall (initCall event) (e :: rest) = stepCall (initCall event) e
    ∧ (stepCall (initCall event) CallEv.timerFired).outcome
        = some (CallResult.rejected ("ack_timeout:" ++ event))
    ∧ (stepCall (initCall event) (CallEv.ackArrived resp)).outcome = some (ackResult resp)
    ∧ (stepCall (initCall event) (CallEv.ackArrived (some { ok := true, data := d, error := er }))).outcome
        = some (CallResult.resolved d)
    ∧ (stepCall (initCall event) (CallEv.ackArrived (some { ok := false, data := d, error := some errStr }))).outcome
        = some (CallResult.rejected errStr)
    ∧ (stepCall (stepCall (initCall event) CallEv.timerFired) (CallEv.ackArrived resp)).outcome
        = some (CallResult.rejected ("ack_timeout:" ++ event))
    ∧ ackTimeoutMs = 20000 := by
  have hsettled : (stepCall (initCall event) e).settled = true := by
    cases e <;> simp [stepCall, initCall]
  refine ⟨hsettled, ?_, by simp [stepCall, initCall], by simp [stepCall, initCall],
    by simp [stepCall, initCall, ackResult], by simp [stepCall, initCall, ackResult], ?_, rfl⟩
  · rw [List.foldl_cons]
    exact foldl_stepCall_settled _ rest hsettled
  · rw [stepCall_settled _ _ (by simp [stepCall, initCall])]
    simp [stepCall, initCall]

/-- Claim C7: emitAck first awaits ensureConnected; when that fails
(connect error or the 5-second timer) the call rejects with the
underlying reason (socket_not_connected when the reason carries no
message) and no request is sent. -/
theorem emitAck_notConnected (alreadyConnected : Bool) (connEv : ConnEv) (event : String)
    (m : Option String) (h : ensureConnected alreadyConnected connEv = ConnResult.err m) :
    emitAck alreadyConnected connEv event
      = EmitOutcome.rejectedBeforeSend (Option.getD m "socket_not_connected")
    ∧ (∀ c, emitAck alreadyConnected connEv event ≠ EmitOutcome.sent c)
    ∧ connectTimeoutMs = 5000 := by
  refine ⟨by simp [emitAck, h], ?_, rfl⟩
  intro c hc
  rw [emitAck, h] at hc
  exact EmitOutcome.noConfusion hc

/-- Witness for claim C7: a cold socket whose connect timer fires first
makes the join call fail with the connect-timeout reason, unsent. -/
theorem emitAck_notConnected_witness :
    emitAck false ConnEv.timeout "join"
      = EmitOutcome.rejectedBeforeSend "socket_connect_timeout" :=
  (emitAck_notConnected false ConnEv.timeout "join" (some "socket_connect_timeout") rfl).1

/-- Claim C9: an absent or malformed acknowledgment envelope always
rejects — with its error string when present, else the generic message —
and data is only ever delivered from an envelope whose ok flag is true. -/
theorem ackResult_malformed_rejects :
    ackResult none = CallResult.rejected "error"
    ∧ (∀ r : Resp, r.ok = false → ackResult (some r) = CallResult.rejected (Option.getD r.error "error"))
    ∧ (∀ (resp : Option Resp) (d : Option TablutState),
        ackResult resp = CallResult.resolved d → ∃ r, resp = some r ∧ r.ok = true ∧ r.data = d) := by
  refine ⟨rfl, ?_, ?_⟩
  · intro r h
    simp [ackResult, h]
  · intro resp d h
    cases resp with
    | none => exact absurd h (by simp [ackResult])
    | some r =>
      by_cases hok : r.ok = true
      · refine ⟨r, rfl, hok, ?_⟩
        rw [ackResult] at h
        simp [hok] at h
        exact h
      · rw [ackResult] at h
        simp [Bool.eq_false_iff.mpr hok] at h

/-- Witness for claim C9: a rejecting envelope with an error string
rejects with exactly that string. -/
theorem ackResult_malformed_rejects_witness :
    ackResult (some { ok := false, data := none, error := some "illegal_move" })
      = CallResult.rejected "illegal_move" :=
  ackResult_malformed_rejects.2.1 { ok := false, data := none, error := some "illegal_move" } rfl

/-- onCellClick never touches the snapshot, the logs, the remembered
game id or the pending-bot-opening flag. -/
theorem onCellClick_preserves (a : App) (row col : Nat) :
    (onCellClick a row col).1.state = a.state
    ∧ (onCellClick a row col).1.logs = a.logs
    ∧ (onCellClick a row col).1.currentStateGameId = a.currentStateGameId
    ∧ (onCellClick a row col).1.pendingNewGameWithBotOpening = a.pendingNewGameWithBotOpening
    ∧ (onCellClick a row col).1.setupSubmitting = a.setupSubmitting := by
  unfold onCellClick
  repeat' first
    | exact ⟨rfl, rfl, rfl, rfl, rfl⟩
    | split
    | dsimp only

/-- The bootstrap prefix never touches the snapshot, the logs, the
remembered game id or the pending-bot-opening flag. -/
theorem bootstrapGame_preserves (a : App) :
    (bootstrapGame a).1.state = a.state
    ∧ (bootstrapGame a).1.logs = a.logs
    ∧ (bootstrapGame a).1.currentStateGameId = a.currentStateGameId
    ∧ (bootstrapGame a).1.pendingNewGameWithBotOpening = a.pendingNewGameWithBotOpening := by
  unfold bootstrapGame runActionStart
  repeat' first
    | exact ⟨rfl, rfl, rfl, rfl⟩
    | split
    | dsimp only

/-- The difficulty-change prefix never touches the snapshot, the logs,
the remembered game id or the pending-bot-opening flag. -/
theorem onDifficultyChange_preserves (a : App) (next : Nat) :
    (onDifficultyChange a next).1.state = a.state
    ∧ (onDifficultyChange a next).1.logs = a.logs
    ∧ (onDifficultyChange a next).1.currentStateGameId = a.currentStateGameId
    ∧ (onDifficultyChange a next).1.pendingNewGameWithBotOpening = a.pendingNewGameWithBotOpening := by
  unfold onDifficultyChange runActionStart
  repeat' first
    | exact ⟨rfl, rfl, rfl, rfl⟩
    | split
    | dsimp only

/-- The bot-thinking handler never touches snapshot, logs or game id. -/
theorem onBotThinkingHandler_preserves (a : App) (active : Bool) :
    (onBotThinkingHandler a active).state = a.state
    ∧ (onBotThinkingHandler a active).logs = a.logs
    ∧ (onBotThinkingHandler a active).currentStateGameId = a.currentStateGameId := by
  unfold onBotThinkingHandler
  split
  · split
    · exact ⟨rfl, rfl, rfl⟩
    · exact ⟨rfl, rfl, rfl⟩
  · exact ⟨rfl, rfl, rfl⟩

/-- A non-clearing push event delivered while the pending-bot-opening
flag is set leaves the flag set. -/
theorem step_pending_preserved (a : App) (x : Ev) (hx : isPushEv x = true)
    (hq : clearsPendingOpening x = false) (hp : a.pendingNewGameWithBotOpening = true) :
    (step a x).pendingNewGameWithBotOpening = true := by
  cases x with
  | statePush st =>
      simp only [clearsPendingOpening, decide_eq_false_iff_not] at hq
      simp [step, onStateHandler_eq, hp, hq]
  | moveResult mv now => exact hp
  | turnNote msg now => exact hp
  | botThinking active =>
      simp only [clearsPendingOpening, Bool.not_eq_false'] at hq
      simp [step, onBotThinkingHandler, hp, hq]
  | gameOver w now => exact hp
  | newGameStart => exact absurd hx (by simp [isPushEv])
  | newGameResolved bs st => exact absurd hx (by simp [isPushEv])
  | newGameRejected bs err => exact absurd hx (by simp [isPushEv])
  | actionResolved st => exact absurd hx (by simp [isPushEv])
  | actionRejected em err => exact absurd hx (by simp [isPushEv])
  | cellClick r c => exact absurd hx (by simp [isPushEv])
  | bootstrapStart => exact absurd hx (by simp [isPushEv])
  | newGameClick => exact absurd hx (by simp [isPushEv])
  | difficultyChange n => exact absurd hx (by simp [isPushEv])
  | selectHumanSide s => exact absurd hx (by simp [isPushEv])

/-- A run of non-clearing push events keeps the pending flag set. -/
theorem foldl_pending_preserved (pre : List Ev) (a : App)
    (hpre : ∀ x ∈ pre, isPushEv x = true ∧ clearsPendingOpening x = false)
    (hp : a.pendingNewGameWithBotOpening = true) :
    (List.foldl step a pre).pendingNewGameWithBotOpening = true := by
  induction pre generalizing a with
  | nil => exact hp
  | cons x rest ih =>
      rw [List.foldl_cons]
      exact ih (step a x)
        (fun y hy => hpre y (List.mem_cons_of_mem x hy))
        (step_pending_preserved a x (hpre x (List.mem_cons_self x rest)).1
          (hpre x (List.mem_cons_self x rest)).2 hp)

/-- Claim C1: starting from a state where a bot-opens new game is
pending (flag and loading set), the first qualifying event of a run of
push events — a snapshot whose humanSide is DEFENDER with non-empty
history, or a bot-thinking transition to inactive — clears the flag
together with loading and submitting. -/
theorem pendingOpening_cleared_by_first_qualifying
    (a : App) (pre : List Ev) (e : Ev)
    (hp : a.pendingNewGameWithBotOpening = true) (_hl : a.loading = true)
    (hpre : ∀ x ∈ pre, isPushEv x = true ∧ clearsPendingOpening x = false)
    (hpush : isPushEv e = true) (hq : clearsPendingOpening e = true) :
    (step (List.foldl step a pre) e).pendingNewGameWithBotOpening = false
    ∧ (step (List.foldl step a pre) e).loading = false
    ∧ (step (List.foldl step a pre) e).setupSubmitting = false := by
  have hpend : (List.foldl step a pre).pendingNewGameWithBotOpening = true :=
    foldl_pending_preserved pre a hpre hp
  cases e with
  | statePush st =>
      simp only [clearsPendingOpening, decide_eq_true_eq] at hq
      simp [step, onStateHandler_eq, hpend, hq]
  | botThinking active =>
      simp only [clearsPendingOpening, Bool.not_eq_true'] at hq
      simp [step, onBotThinkingHandler, hpend, hq]
  | moveResult mv now => exact absurd hq (by simp [clearsPendingOpening])
  | turnNote msg now => exact absurd hq (by simp [clearsPendingOpening])
  | gameOver w now => exact absurd hq (by simp [clearsPendingOpening])
  | newGameStart => exact absurd hpush (by simp [isPushEv])
  | newGameResolved bs st => exact absurd hpush (by simp [isPushEv])
  | newGameRejected bs err => exact absurd hpush (by simp [isPushEv])
  | actionResolved st => exact absurd hpush (by simp [isPushEv])
  | actionRejected em err => exact absurd hpush (by simp [isPushEv])
  | cellClick r c => exact absurd hpush (by simp [isPushEv])
  | bootstrapStart => exact absurd hpush (by simp [isPushEv])
  | newGameClick => exact absurd hpush (by simp [isPushEv])
  | difficultyChange n => exact absurd hpush (by simp [isPushEv])
  | selectHumanSide s => exact absurd hpush (by simp [isPushEv])

/-- Witness for claim C1: in the bot-opens scenario, a state push with
humanSide DEFENDER and exactly one history entry clears the pending
flag, loading and submitting. -/
theorem pendingOpening_cleared_witness :
    (step (List.foldl step appPendingOpening []) (Ev.statePush stBotOpened)).pendingNewGameWithBotOpening = false
    ∧ (step (List.foldl step appPendingOpening []) (Ev.statePush stBotOpened)).loading = false
    ∧ (step (List.foldl step appPendingOpening []) (Ev.statePush stBotOpened)).setupSubmitting = false :=
  pendingOpening_cleared_by_first_qualifying appPendingOpening [] (Ev.statePush stBotOpened)
    rfl rfl (by simp) (by decide) (by decide)

/-- Claim C2: every accepted snapshot resets the transient message,
clears the selection, persists the snapshot id to the URL parameter and
to local storage, and — unless the pending-bot-opening rule keeps them
on — turns loading and submitting off. -/
theorem snapshot_unconditional_effects (a : App) (st : TablutState) :
    (onStateHandler a st).message = ""
    ∧ (onStateHandler a st).selectedFrom = none
    ∧ (onStateHandler a st).urlGameParam = some st.id
    ∧ (onStateHandler a st).lsGameId = some st.id
    ∧ ((a.pendingNewGameWithBotOpening = true →
          st.humanSide = Side.DEFENDER ∧ 0 < st.moveHistory.length) →
        (onStateHandler a st).loading = false ∧ (onStateHandler a st).setupSubmitting = false) := by
  rw [onStateHandler_eq]
  refine ⟨rfl, rfl, rfl, rfl, ?_⟩
  intro hkeep
  by_cases hp : a.pendingNewGameWithBotOpening = true
  · simp [hp, hkeep hp]
  · simp [Bool.eq_false_iff.mpr hp]

/-- Witness for claim C2: a snapshot accepted with no pending bot
opening resets message and selection, persists its id both ways, and
stops loading and submitting. -/
theorem snapshot_unconditional_effects_witness :
    (onStateHandler app0 stBotOpened).message = ""
    ∧ (onStateHandler app0 stBotOpened).selectedFrom = none
    ∧ (onStateHandler app0 stBotOpened).urlGameParam = some "g1"
    ∧ (onStateHandler app0 stBotOpened).lsGameId = some "g1"
    ∧ (onStateHandler app0 stBotOpened).loading = false
    ∧ (onStateHandler app0 stBotOpened).setupSubmitting = false := by
  have h := snapshot_unconditional_effects app0 stBotOpened
  have hflags := h.2.2.2.2 (by decide)
  exact ⟨h.1, h.2.1, h.2.2.1, h.2.2.2.1, hflags.1, hflags.2⟩

/-- A rebuilt log list holds at most 40 entries. -/
theorem buildLogsFromHistory_length_le (st : TablutState) :
    (buildLogsFromHistory st).length ≤ 40 := by
  rw [buildLogsFromHistory, List.length_take]
  exact min_le_left _ _

/-- pushLog keeps at most 40 entries. -/
theorem pushLog_length_le (logs : List String) (now : Time) (msg : String) :
    (pushLog logs now msg).length ≤ 40 := by
  rw [pushLog, List.length_take]
  exact min_le_left _ _

/-- Any single controller step keeps the log list within 40 entries. -/
theorem step_logs_bound (a : App) (e : Ev) (h : a.logs.length ≤ 40) :
    (step a e).logs.length ≤ 40 := by
  cases e with
  | statePush st =>
      simp only [step, onStateHandler_eq]
      split
      · exact buildLogsFromHistory_length_le st
      · exact h
  | moveResult mv now => exact pushLog_length_le _ _ _
  | turnNote msg now => exact pushLog_length_le _ _ _
  | botThinking active =>
      simp only [step]
      rw [(onBotThinkingHandler_preserves a active).2.1]
      exact h
  | gameOver w now => exact pushLog_length_le _ _ _
  | newGameStart => simp [step, startNewGame]
  | newGameResolved bs st =>
      simp only [step, startNewGameResolved]
      split
      · exact h
      · exact h
  | newGameRejected bs err => exact h
  | actionResolved st => exact h
  | actionRejected em err => exact h
  | cellClick r c =>
      simp only [step]
      rw [(onCellClick_preserves a r c).2.1]
      exact h
  | bootstrapStart =>
      simp only [step]
      rw [(bootstrapGame_preserves a).2.1]
      exact h
  | newGameClick => exact h
  | difficultyChange n =>
      simp only [step]
      rw [(onDifficultyChange_preserves a n).2.1]
      exact h
  | selectHumanSide s => exact h

/-- Any run of controller steps keeps the log list within 40 entries. -/
theorem foldl_logs_bound (evs : List Ev) (a : App) (h : a.logs.length ≤ 40) :
    (List.foldl step a evs).logs.length ≤ 40 := by
  induction evs generalizing a with
  | nil => exact h
  | cons e rest ih =>
      rw [List.foldl_cons]
      exact ih (step a e) (step_logs_bound a e h)

/-- Claim C3: the log list never exceeds 40 entries over any run and is
kept newest-first: it is rebuilt wholesale from the snapshot's history
exactly when the game id changes and left alone by a same-game snapshot,
each push handler prepends one formatted, stamped line (truncating to
40), and a rebuild puts the most recent history record first. -/
theorem logEntries_cap_and_rebuild
    (a : App) (evs : List Ev) (st : TablutState) (mv : MoveResultPayload)
    (msg : String) (w : Side) (now : Time) :
    (a.logs.length ≤ 40 → (List.foldl step a evs).logs.length ≤ 40)
    ∧ (a.currentStateGameId ≠ some st.id →
        (step a (Ev.statePush st)).logs = buildLogsFromHistory st)
    ∧ (a.currentStateGameId = some st.id → (step a (Ev.statePush st)).logs = a.logs)
    ∧ (step a (Ev.moveResult mv now)).logs
        = formatClockLine now (sideLabel mv.side ++ ": " ++ posStr mv.«from» ++ " -> " ++ posStr mv.«to» ++ (if mv.captures.length ≠ 0 then " x" ++ toString mv.captures.length else ""))
          :: List.take 39 a.logs
    ∧ (step a (Ev.turnNote msg now)).logs = formatClockLine now msg :: List.take 39 a.logs
    ∧ (step a (Ev.gameOver w now)).logs
        = formatClockLine now ("Fin de partida. Ganador: " ++ sideLabel w) :: List.take 39 a.logs
    ∧ (∀ hist r, st.moveHistory = hist ++ [r] →
        (buildLogsFromHistory st).head? = some (formatHistoryLine r))
    ∧ (buildLogsFromHistory st).length ≤ 40 := by
  refine ⟨foldl_logs_bound evs a, ?_, ?_, ?_, ?_, ?_, ?_, buildLogsFromHistory_length_le st⟩
  · intro hne
    simp [step, onStateHandler_eq, hne]
  · intro heq
    simp [step, onStateHandler_eq, heq]
  · simp only [step, onMoveResultHandler, pushLog]
    rfl
  · simp only [step, onTurnNoteHandler, pushLog]
    rfl
  · simp only [step, onGameOverHandler, pushLog]
    rfl
  · intro hist r hh
    rw [buildLogsFromHistory, hh]
    simp only [List.map_append, List.map_cons, List.map_nil, List.reverse_append,
      List.reverse_cons, List.reverse_nil, List.nil_append, List.cons_append]
    rfl

/-- Witness for claim C3: a run appending one note stays within the
cap, a snapshot for a new game id rebuilds the list from history, and
the rebuilt list puts the single (latest) history record first. -/
theorem logEntries_cap_and_rebuild_witness :
    (List.foldl step app0 [Ev.turnNote "Turno del defensor" t0]).logs.length ≤ 40
    ∧ (step app0 (Ev.statePush stBotOpened)).logs = buildLogsFromHistory stBotOpened
    ∧ (buildLogsFromHistory stBotOpened).head?
        = some (formatHistoryLine { turn := 1, side := Side.ATTACKER, «from» := ⟨0, 3⟩, «to» := ⟨2, 3⟩, captures := [], capturedPieces := [] }) := by
  have h := logEntries_cap_and_rebuild app0 [Ev.turnNote "Turno del defensor" t0] stBotOpened
    { side := Side.ATTACKER, «from» := ⟨0, 0⟩, «to» := ⟨0, 1⟩, captures := [] }
    "Turno del defensor" Side.ATTACKER t0
  exact ⟨h.1 (by decide), h.2.1 (by decide), h.2.2.2.2.2.2.1 [] _ rfl⟩

/-- Membership form of the some-check run by onCellClick over the
precomputed target list. -/
theorem any_pos_eq_mem (l : List Pos) (row col : Nat) :
    List.any l (fun p => p.row == row && p.col == col) = true ↔ (⟨row, col⟩ : Pos) ∈ l := by
  rw [List.any_eq_true]
  constructor
  · rintro ⟨p, hp, hpe⟩
    obtain ⟨pr, pc⟩ := p
    simp only [Bool.and_eq_true, beq_iff_eq] at hpe
    obtain ⟨h1, h2⟩ := hpe
    subst h1
    subst h2
    exact hp
  · intro hm
    exact ⟨⟨row, col⟩, hm, by simp⟩

/-- Claim C4 (amended): clicks outside the human's turn are ignored
entirely, and with a selection held, clicking a legal destination other
than the origin clears the selection and issues the move request for
(origin, destination) at that very moment. -/
theorem onCellClick_gating_and_target (a : App) (row col : Nat) :
    (humanTurn a = false → onCellClick a row col = (a, none))
    ∧ (∀ st f, a.state = some st → a.selectedFrom = some f → humanTurn a = true →
        ¬(f.row = row ∧ f.col = col) →
        (⟨row, col⟩ : Pos) ∈ selectedTargets a →
        (onCellClick a row col).1.selectedFrom = none
        ∧ (onCellClick a row col).2 = some { gameId := st.id, «from» := f, «to» := ⟨row, col⟩ }) := by
  constructor
  · intro hht
    unfold onCellClick
    cases hs : a.state with
    | none => rfl
    | some st => simp [hht]
  · intro st f hs hf hht hne hmem
    have hany : List.any (selectedTargets a) (fun p => p.row == row && p.col == col) = true :=
      (any_pos_eq_mem (selectedTargets a) row col).mpr hmem
    unfold onCellClick
    rw [hs]
    simp [hht, hf, hne, hany]

/-- Counterexample for claim C4 as stated: with the (degenerate,
server-supplied) self-move from (4,4) to (4,4) legal and (4,4)
selected, (4,4) is in the legal-destination set of the selection, yet
clicking it only deselects and no move:play request is issued. -/
theorem onCellClick_origin_target_cex :
    humanTurn appSelfTarget = true
    ∧ appSelfTarget.selectedFrom = some ⟨4, 4⟩
    ∧ (⟨4, 4⟩ : Pos) ∈ selectedTargets appSelfTarget
    ∧ (onCellClick appSelfTarget 4 4).1.selectedFrom = none
    ∧ (onCellClick appSelfTarget 4 4).2 = none := by decide

/-- Witness for claim C4: with (3,4) selected and (4,4) a legal target,
clicking (4,4) clears the selection and issues the move request. -/
theorem onCellClick_gating_witness :
    (onCellClick appAtkSelected 4 4).1.selectedFrom = none
    ∧ (onCellClick appAtkSelected 4 4).2
        = some { gameId := "g2", «from» := ⟨3, 4⟩, «to» := ⟨4, 4⟩ } :=
  (onCellClick_gating_and_target appAtkSelected 4 4).2 stAtkTurn ⟨3, 4⟩
    rfl rfl (by decide) (by decide) (by decide)

/-- Claim C5 (amended): the canonical snapshot field changes only under
a state push — which swaps the pushed snapshot in wholesale — or the
reset to empty performed by startNewGame; every other step, including
the resumption of any resolved call, leaves it untouched. -/
theorem canonical_snapshot_single_source (a : App) (e : Ev) (st : TablutState) :
    ((step a e).state = a.state
      ∨ (∃ s, e = Ev.statePush s ∧ (step a e).state = some s)
      ∨ (e = Ev.newGameStart ∧ (step a e).state = none))
    ∧ (step a (Ev.statePush st)).state = some st := by
  constructor
  · cases e with
    | statePush s => exact Or.inr (Or.inl ⟨s, rfl, by simp [step, onStateHandler_eq]⟩)
    | moveResult mv now => exact Or.inl rfl
    | turnNote msg now => exact Or.inl rfl
    | botThinking active => exact Or.inl (onBotThinkingHandler_preserves a active).1
    | gameOver w now => exact Or.inl rfl
    | newGameStart => exact Or.inr (Or.inr ⟨rfl, rfl⟩)
    | newGameResolved bs s =>
        refine Or.inl ?_
        simp only [step, startNewGameResolved]
        split
        · rfl
        · rfl
    | newGameRejected bs err => exact Or.inl rfl
    | actionResolved s => exact Or.inl rfl
    | actionRejected em err => exact Or.inl rfl
    | cellClick r c => exact Or.inl (onCellClick_preserves a r c).1
    | bootstrapStart => exact Or.inl (bootstrapGame_preserves a).1
    | newGameClick => exact Or.inl rfl
    | difficultyChange n => exact Or.inl (onDifficultyChange_preserves a n).1
    | selectHumanSide s => exact Or.inl rfl
  · simp [step, onStateHandler_eq]

/-- Counterexample for claim C5 as stated: a call resolving with a
snapshot does not install it — the controller discards resolved call
results, and only the state push installs snapshots. -/
theorem resolvedCall_snapshot_discarded_cex :
    app0.state = none
    ∧ (step app0 (Ev.actionResolved stBotOpened)).state ≠ some stBotOpened
    ∧ (step app0 (Ev.newGameResolved false stBotOpened)).state ≠ some stBotOpened := by decide

/-- Claim C8 (amended): the generic failure path of runAction clears
loading (leaving submitting untouched), and the new-game failure path
clears loading, submitting and the pending-bot-opening flag and reopens
the setup prompt. -/
theorem failure_paths_clear_flags (a : App) (em : String) (err : Option String) :
    (runActionRejected a em err).loading = false
    ∧ (startNewGameRejected a err).loading = false
    ∧ (startNewGameRejected a err).setupSubmitting = false
    ∧ (startNewGameRejected a err).pendingNewGameWithBotOpening = false
    ∧ (startNewGameRejected a err).setupOpen = true :=
  ⟨rfl, rfl, rfl, rfl, rfl⟩

/-- Counterexample for claim C8 as stated: a failing move call handled
by runAction leaves submitting set (only loading is cleared), so the
generic failure path does not clear both flags. -/
theorem runAction_failure_keeps_submitting_cex :
    appSubmitting.setupSubmitting = true
    ∧ (runActionRejected appSubmitting "No se pudo jugar el movimiento" (some "illegal_move")).setupSubmitting = true
    ∧ (runActionRejected appSubmitting "No se pudo jugar el movimiento" (some "illegal_move")).loading = false := by
  decide

/-- A step that is not a state push keeps an empty remembered game id
empty. -/
theorem step_gameId_none_preserved (a : App) (e : Ev)
    (hn : a.currentStateGameId = none) (he : ∀ s, e ≠ Ev.statePush s) :
    (step a e).currentStateGameId = none := by
  cases e with
  | statePush s => exact absurd rfl (he s)
  | moveResult mv now => exact hn
  | turnNote msg now => exact hn
  | botThinking active => rw [step, (onBotThinkingHandler_preserves a active).2.2]; exact hn
  | gameOver w now => exact hn
  | newGameStart => rfl
  | newGameResolved bs s =>
      simp only [step, startNewGameResolved]
      split
      · exact hn
      · exact hn
  | newGameRejected bs err => exact hn
  | actionResolved s => exact hn
  | actionRejected em err => exact hn
  | cellClick r c => rw [step, (onCellClick_preserves a r c).2.2.1]; exact hn
  | bootstrapStart => rw [step, (bootstrapGame_preserves a).2.2.1]; exact hn
  | newGameClick => exact hn
  | difficultyChange n => rw [step, (onDifficultyChange_preserves a n).2.2.1]; exact hn
  | selectHumanSide s => exact hn

/-- A run without state pushes keeps an empty remembered game id empty. -/
theorem foldl_gameId_none_preserved (evs : List Ev) (a : App)
    (hn : a.currentStateGameId = none) (hevs : ∀ e ∈ evs, ∀ s, e ≠ Ev.statePush s) :
    (List.foldl step a evs).currentStateGameId = none := by
  induction evs generalizing a with
  | nil => exact hn
  | cons e rest ih =>
      rw [List.foldl_cons]
      exact ih (step a e)
        (step_gameId_none_preserved a e hn (hevs e (List.mem_cons_self e rest)))
        (fun y hy => hevs y (List.mem_cons_of_mem e hy))

/-- Claim C10: startNewGame resets the snapshot, the logs, the
selection and the remembered game id before the game:new request is
sent, so the first snapshot accepted afterwards (no matter which
push-free steps intervene) counts as a game change and rebuilds the
logs entirely from its history. -/
theorem startNewGame_resets_then_rebuild (a : App) (evs : List Ev) (st : TablutState)
    (hevs : ∀ e ∈ evs, ∀ s, e ≠ Ev.statePush s) :
    (startNewGame a).1.state = none
    ∧ (startNewGame a).1.logs = []
    ∧ (startNewGame a).1.selectedFrom = none
    ∧ (startNewGame a).1.currentStateGameId = none
    ∧ (List.foldl step (startNewGame a).1 evs).currentStateGameId = none
    ∧ (step (List.foldl step (startNewGame a).1 evs) (Ev.statePush st)).logs
        = buildLogsFromHistory st := by
  have hid : (List.foldl step (startNewGame a).1 evs).currentStateGameId = none :=
    foldl_gameId_none_preserved evs (startNewGame a).1 rfl hevs
  refine ⟨rfl, rfl, rfl, rfl, hid, ?_⟩
  simp [step, onStateHandler_eq, hid]

/-- Witness for claim C10: resetting, then a harmless bot-thinking
push, then the first snapshot: the logs come wholesale from the
snapshot's history. -/
theorem startNewGame_resets_witness :
    (startNewGame app0).1.state = none
    ∧ (startNewGame app0).1.logs = []
    ∧ (startNewGame app0).1.currentStateGameId = none
    ∧ (step (List.foldl step (startNewGame app0).1 [Ev.botThinking true]) (Ev.statePush stBotOpened)).logs
        = buildLogsFromHistory stBotOpened := by
  have h := startNewGame_resets_then_rebuild app0 [Ev.botThinking true] stBotOpened
    (by
      intro e he s
      simp only [List.mem_singleton] at he
      subst he
      exact fun hcontra => Ev.noConfusion hcontra)
  exact ⟨h.1, h.2.1, h.2.2.2.1, h.2.2.2.2.2⟩

end Tablut
